import Mathlib

/-!
# csail-proxy: host-based reverse proxy

A shallow embedding of `proxy.go` (and of the in-memory store of
`proxy_test.go`).  Go strings are Lean `String`s; a Go `(value, error)` pair
is a Lean pair whose second component is `none` for a `nil` error.  The
separator '.' is a one-byte character that never occurs inside a longer UTF-8
sequence, so cutting a host at the character is cutting it at the byte.

Library functions stay parameters of the handlers: `lower` for
`strings.ToLower`, `decode` for the JSON decoder, `parse` for `url.Parse`.
`asciiLower`, `testDecode` and `urlParse` are the instances used to evaluate
the handlers on concrete requests.
-/

set_option autoImplicit false

namespace Proxy

/-! ## Strings -/

/-- Loop of `strings.Split(s, sep)` for a one-character separator: `cur` holds,
in reverse, the characters read since the last separator; every separator
closes the current piece, and the end of the input closes the last one. -/
def splitLoop (sep : Char) : List Char → List Char → List String
  | [], cur => [String.mk cur.reverse]
  | c :: cs, cur =>
    if c = sep then String.mk cur.reverse :: splitLoop sep cs []
    else splitLoop sep cs (c :: cur)

/-- Model of `strings.Split(s, sep)` for a one-character separator. -/
def Split (s : String) (sep : Char) : List String :=
  splitLoop sep s.data []

/-! ## The request and the host key extractor -/

/-- The fields of `http.Request` that `proxy.go` reads. -/
structure Request where
  Method : String
  RequestURI : String
  Host : String
  Body : String
deriving DecidableEq, Repr

/-- Model of `proxyServer.extractServiceUrl` (the receiver is not used by the
body).  `parts[i]` is `parts.getD i ""`; both indices are in range where the
source evaluates them. -/
def extractServiceUrl (r : Request) : String × Option String :=
  let host := r.Host
  let parts := Split host '.'
  if parts.length > 2 ∧ parts.getD 0 "" ≠ "www" then
    (parts.getD 0 "", none)
  else if parts.length = 4 then
    (parts.getD 1 "", none)
  else
    ("", some "unknown URL.Host format")

/-! ## The registry -/

/-- The `Store` interface.  The hidden state of an implementation is a value of
`σ`; `Set` returns the new state and the error, `Get` the value and the
error. -/
structure Store (σ : Type) where
  Set : σ → String → String → σ × Option String
  Get : σ → String → String × Option String

/-- What `redisStore` uses of `*redis.Client`: the outcome of
`client.Set(key, value, 0).Err()` and of `client.Get(key).Result()`. -/
structure RedisClient (σ : Type) where
  Set : σ → String → String → σ × Option String
  Get : σ → String → String × Option String

/-- Model of `redisStore`; `lower` stands for `strings.ToLower`. -/
def redisStore (lower : String → String) {σ : Type} (client : RedisClient σ) : Store σ where
  Set := fun c key value => client.Set c (lower key) value
  Get := fun c key => client.Get c (lower key)

/-- The Go `map[string]string` held by `memoryStore`. -/
abbrev GoMap := String → Option String

/-- Result of `make(map[string]string)`. -/
def emptyMap : GoMap := fun _ => none

/-- Model of `memoryStore` (proxy_test.go); `lower` stands for
`strings.ToLower`. -/
def memoryStore (lower : String → String) : Store GoMap where
  Set := fun m k v => (fun x => if x = lower k then some v else m x, none)
  Get := fun m k =>
    match m (lower k) with
    | some val => (val, none)
    | none => ("", some "record not found")

/-- ASCII letters to lower case, the part of `strings.ToLower` that does not
need the Unicode tables; used to evaluate the model on concrete keys. -/
def asciiLower (s : String) : String :=
  String.mk (s.data.map Char.toLower)

/-! ## URLs -/

deriving instance DecidableEq for Except

/-- The fields of `url.URL` that the model fills in. -/
structure URL where
  Scheme : String
  Opaque : String
  Host : String
  Path : String
  RawQuery : String
  Fragment : String
deriving DecidableEq, Repr

/-- Go's `stringContainsCTLByte`. -/
def stringContainsCTLByte (s : List Char) : Bool :=
  s.any fun c => decide (c.toNat < 32) || decide (c.toNat = 127)

/-- Loop of Go's `getscheme`: `pre` holds, in reverse, the characters before
index `i`, so `i == 0` is `pre = []`.  Returns `(scheme, path)`. -/
def getschemeLoop : List Char → List Char → Except String (List Char × List Char)
  | [], pre => .ok ([], pre.reverse)
  | c :: cs, pre =>
    if c.isAlpha then getschemeLoop cs (c :: pre)
    else if c.isDigit ∨ c = '+' ∨ c = '-' ∨ c = '.' then
      if pre = [] then .ok ([], c :: cs) else getschemeLoop cs (c :: pre)
    else if c = ':' then
      if pre = [] then .error "missing protocol scheme" else .ok (pre.reverse, cs)
    else .ok ([], pre.reverse ++ c :: cs)

/-- Go's `getscheme`. -/
def getscheme (rawurl : List Char) : Except String (List Char × List Char) :=
  getschemeLoop rawurl []

/-- Go's `split(s, sep, true)` for a one-character separator: the text before
the first `sep` and the text after it (empty when there is no `sep`). -/
def cutAt (sep : Char) : List Char → List Char × List Char
  | [] => ([], [])
  | c :: cs => if c = sep then ([], cs) else ((c :: (cutAt sep cs).1), (cutAt sep cs).2)

/-- Go's `ishex`. -/
def ishex (c : Char) : Bool :=
  c.isDigit || (decide ('a' ≤ c) && decide (c ≤ 'f')) || (decide ('A' ≤ c) && decide (c ≤ 'F'))

/-- The well-formedness check of Go's `unescape` outside host mode: every '%'
is followed by two hexadecimal digits. -/
def escapesOk : List Char → Bool
  | [] => true
  | c :: cs =>
    if c = '%' then
      match cs with
      | h1 :: h2 :: rest => ishex h1 && ishex h2 && escapesOk rest
      | _ => false
    else escapesOk cs

/-- Go's `url.parse(rawurl, false)` on the text before the fragment.  Modelled
exactly: the control-character check, `"*"`, `getscheme`, the cut at `?`, the
rootless-path rules, the cut between authority and path, and the check of
percent-escapes in the path.  Not modelled: percent-decoding (`Path` keeps the
text as written, which is Go's `Path` when the text has no '%'), and the
validation of user information, port and host characters inside an authority
(`Host` is the text after the last '@'). -/
def parseNoFragment (rawurl : List Char) : Except String URL :=
  if stringContainsCTLByte rawurl then .error "net/url: invalid control character in URL"
  else if rawurl = ['*'] then .ok ⟨"", "", "", "*", "", ""⟩
  else
    match getscheme rawurl with
    | .error e => .error e
    | .ok (scheme, rest0) =>
      let scheme := scheme.map Char.toLower
      let rest := (cutAt '?' rest0).1
      let rawQuery := (cutAt '?' rest0).2
      if rest.head? ≠ some '/' ∧ scheme ≠ [] then
        .ok ⟨String.mk scheme, String.mk rest, "", "", String.mk rawQuery, ""⟩
      else if rest.head? ≠ some '/' ∧ (rest.takeWhile (· ≠ '/')).contains ':' then
        .error "first path segment in URL cannot contain colon"
      else
        let hasAuthority : Bool :=
          (decide (scheme ≠ []) || !(['/', '/', '/'].isPrefixOf rest)) && ['/', '/'].isPrefixOf rest
        let authority := if hasAuthority then (rest.drop 2).takeWhile (· ≠ '/') else []
        let path := if hasAuthority then (rest.drop 2).dropWhile (· ≠ '/') else rest
        let host := (authority.reverse.takeWhile (· ≠ '@')).reverse
        if escapesOk path then
          .ok ⟨String.mk scheme, "", String.mk host, String.mk path, String.mk rawQuery, ""⟩
        else .error "invalid URL escape"

/-- Model of Go's `url.Parse`: cut off the fragment, parse the rest, check the
fragment's percent-escapes. -/
def urlParse (rawurl : String) : Except String URL :=
  match parseNoFragment (cutAt '#' rawurl.data).1 with
  | .error e => .error e
  | .ok u =>
    let frag := (cutAt '#' rawurl.data).2
    if escapesOk frag then .ok { u with Fragment := String.mk frag }
    else .error "invalid URL escape"

/-! ## The dispatcher -/

/-- The `*httputil.ReverseProxy` returned by `NewSingleHostReverseProxy(u)`,
identified by its target. -/
structure SingleHostReverseProxy where
  target : URL
deriving DecidableEq, Repr

/-- Go's `httputil.NewSingleHostReverseProxy`. -/
def NewSingleHostReverseProxy (u : URL) : SingleHostReverseProxy := ⟨u⟩

/-- The `reverseProxy` struct. -/
structure reverseProxy where
  handler : SingleHostReverseProxy
deriving DecidableEq, Repr

/-- Model of `newReverseProxy`; `parse` stands for `url.Parse`. -/
def newReverseProxy (parse : String → Except String URL) (targetUrl : String) :
    Except String reverseProxy :=
  match parse targetUrl with
  | .error err => .error err
  | .ok u =>
    let handler := NewSingleHostReverseProxy u
    .ok ⟨handler⟩

/-! ## The router and the admin endpoint -/

def StatusOK : Nat := 200
def StatusBadRequest : Nat := 400
def StatusInternalServerError : Nat := 500
def StatusBadGateway : Nat := 502

/-- The two handlers `ServeHTTP` chooses between. -/
inductive Handler where
  | handleSet
  | proxyHandler
deriving DecidableEq, Repr

/-- What a request makes the server do, in order: which handler is entered,
the calls `s.store.Set(key, value)` and `newReverseProxy(targetUrl)`, the
status passed to `w.WriteHeader`, and the hand-over `p.handler.ServeHTTP(w, r)`
to the library's reverse proxy. -/
inductive Event where
  | enter (h : Handler)
  | storeSet (key value : String)
  | newReverseProxy (targetUrl : String)
  | WriteHeader (code : Nat)
  | forward (p : reverseProxy)
deriving DecidableEq, Repr

/-- The anonymous struct that `handleSet` decodes the body into. -/
structure SetBody where
  Name : String
  ServiceUrl : String
deriving DecidableEq, Repr

/-- The `proxyServer` struct. -/
structure proxyServer (σ : Type) where
  store : Store σ

/-- Model of `newProxyServer`. -/
def newProxyServer {σ : Type} (s : Store σ) : proxyServer σ := ⟨s⟩

/-- Model of `proxyServer.handleSet`.  `lower` stands for `strings.ToLower`,
`decode` for `json.NewDecoder(r.Body).Decode(&body)` (`none` when it returns an
error); `st` is the state of the store before the call. -/
def handleSet (lower : String → String) (decode : String → Option SetBody) {σ : Type}
    (s : proxyServer σ) (st : σ) (r : Request) : σ × List Event :=
  if r.Method ≠ "POST" then (st, [.WriteHeader StatusBadRequest])
  else
    match decode r.Body with
    | none => (st, [.WriteHeader StatusBadRequest])
    | some body =>
      match s.store.Set st (lower body.Name) body.ServiceUrl with
      | (st1, some _) =>
        (st1, [.storeSet (lower body.Name) body.ServiceUrl, .WriteHeader StatusInternalServerError])
      | (st1, none) =>
        (st1, [.storeSet (lower body.Name) body.ServiceUrl, .WriteHeader StatusOK])

/-- Model of `proxyServer.proxyHandler`; `parse` stands for `url.Parse`. -/
def proxyHandler (parse : String → Except String URL) {σ : Type}
    (_s : proxyServer σ) (st : σ) (r : Request) : σ × List Event :=
  match extractServiceUrl r with
  | (_, some _) => (st, [.WriteHeader StatusBadGateway])
  | (serviceUrl, none) =>
    match newReverseProxy parse serviceUrl with
    | .error _ => (st, [.newReverseProxy serviceUrl, .WriteHeader StatusInternalServerError])
    | .ok p => (st, [.newReverseProxy serviceUrl, .forward p])

/-- Model of `proxyServer.ServeHTTP` (the `log` calls of the handlers are left
out). -/
def ServeHTTP (lower : String → String) (decode : String → Option SetBody)
    (parse : String → Except String URL) {σ : Type}
    (s : proxyServer σ) (st : σ) (r : Request) : σ × List Event :=
  let requestUri := r.RequestURI
  if requestUri = "/set" then
    ((handleSet lower decode s st r).1, .enter .handleSet :: (handleSet lower decode s st r).2)
  else
    ((proxyHandler parse s st r).1, .enter .proxyHandler :: (proxyHandler parse s st r).2)

/-- The status codes a run passed to `w.WriteHeader`. -/
def statuses : List Event → List Nat
  | [] => []
  | .WriteHeader c :: es => c :: statuses es
  | _ :: es => statuses es

/-- The handlers a run entered, in order. -/
def entered : List Event → List Handler
  | [] => []
  | .enter h :: es => h :: entered es
  | _ :: es => entered es

/-- The path of a request URI in origin form: the text before the first '?'. -/
def uriPath (requestUri : String) : String :=
  String.mk (cutAt '?' requestUri.data).1

/-- An absolute URL in the sense of the specification: one with a scheme and a
host. -/
def isAbsolute (u : URL) : Bool :=
  decide (u.Scheme ≠ "") && decide (u.Host ≠ "")

/-- The body that `TestHandleSet` posts. -/
def testBody : String :=
  "\x7b\"name\":\"Test\",\"service_url\":\"http://test.example.com\"\x7d\n"

/-- A decoder defined on the body of `TestHandleSet` only, used to evaluate the
handlers on that request. -/
def testDecode (b : String) : Option SetBody :=
  if b = testBody then some ⟨"Test", "http://test.example.com"⟩ else none

/-- The request of `TestHandleSet`. -/
def testSetRequest : Request := ⟨"POST", "/set", "example.com", testBody⟩

/-- A store that accepts every write and keeps nothing: `Set` returns a `nil`
error, `Get` never finds a record. -/
def forgetfulStore : Store Unit where
  Set := fun _ _ _ => ((), none)
  Get := fun _ _ => ("", some "record not found")

/-- A store whose backing connection is down: every call returns an error. -/
def downStore : Store Unit where
  Set := fun _ _ _ => ((), some "dial tcp: connection refused")
  Get := fun _ _ => ("", some "dial tcp: connection refused")

/-- A decimal number: a non-empty text of digits `0`..`9`. -/
def isDecimal (s : String) : Bool :=
  !s.data.isEmpty && s.data.all Char.isDigit

/-! ## Lemmas on `Split` -/

theorem splitLoop_length_pos (sep : Char) (s cur : List Char) :
    1 ≤ (splitLoop sep s cur).length := by
  induction s generalizing cur with
  | nil => simp [splitLoop]
  | cons c cs ih =>
    unfold splitLoop
    split
    · simp
    · exact ih _

theorem splitLoop_no_sep (sep : Char) (x cur : List Char) (hx : sep ∉ x) :
    splitLoop sep x cur = [String.mk (cur.reverse ++ x)] := by
  induction x generalizing cur with
  | nil => simp [splitLoop]
  | cons c cs ih =>
    have hc : c ≠ sep := fun h => hx (by simp [h])
    have hcs : sep ∉ cs := fun h => hx (by simp [h])
    unfold splitLoop
    rw [if_neg hc, ih _ hcs]
    simp

theorem splitLoop_first_piece (sep : Char) (x y cur : List Char) (hx : sep ∉ x) :
    splitLoop sep (x ++ sep :: y) cur
      = String.mk (cur.reverse ++ x) :: splitLoop sep y [] := by
  induction x generalizing cur with
  | nil => simp [splitLoop]
  | cons c cs ih =>
    have hc : c ≠ sep := fun h => hx (by simp [h])
    have hcs : sep ∉ cs := fun h => hx (by simp [h])
    rw [List.cons_append]
    simp only [splitLoop, if_neg hc]
    rw [ih _ hcs]
    simp

theorem splitLoop_two_pieces (sep : Char) (x y cur : List Char) :
    2 ≤ (splitLoop sep (x ++ sep :: y) cur).length := by
  induction x generalizing cur with
  | nil =>
    have := splitLoop_length_pos sep y []
    simp [splitLoop]
    omega
  | cons c cs ih =>
    rw [List.cons_append]
    unfold splitLoop
    split
    · have := ih []
      simp
      omega
    · exact ih _

theorem Split_length_pos (s : String) (sep : Char) : 1 ≤ (Split s sep).length :=
  splitLoop_length_pos sep s.data []

theorem dot_data : (".": String).data = ['.'] := rfl

/-- A host `a.rest` whose first label `a` has no dot splits into `a` followed by
the pieces of `rest`. -/
theorem Split_first_label (a rest : String) (ha : '.' ∉ a.data) :
    Split (a ++ "." ++ rest) '.' = a :: Split rest '.' := by
  unfold Split
  have h : (a ++ "." ++ rest).data = a.data ++ '.' :: rest.data := by
    simp [String.data_append, dot_data]
  rw [h, splitLoop_first_piece _ _ _ _ ha]
  simp

theorem Split_no_dot (a : String) (ha : '.' ∉ a.data) : Split a '.' = [a] := by
  unfold Split
  rw [splitLoop_no_sep _ _ _ ha]
  simp

theorem Split_two_pieces (b c : String) : 2 ≤ (Split (b ++ "." ++ c) '.').length := by
  unfold Split
  have h : (b ++ "." ++ c).data = b.data ++ '.' :: c.data := by
    simp [String.data_append, dot_data]
  rw [h]
  exact splitLoop_two_pieces _ _ _ _

/-- The first-label rule of `extractServiceUrl`, on the list of labels. -/
theorem extractServiceUrl_of_parts (r : Request) (a : String) (ps : List String)
    (hparts : Split r.Host '.' = a :: ps) (hlen : 2 ≤ ps.length) (hwww : a ≠ "www") :
    extractServiceUrl r = (a, none) := by
  unfold extractServiceUrl
  simp only [hparts, List.length_cons, List.getD_cons_zero]
  rw [if_pos ⟨by omega, hwww⟩]

/-- The body of `extractServiceUrl` with its local names unfolded. -/
theorem extractServiceUrl_eq (r : Request) :
    extractServiceUrl r =
      if (Split r.Host '.').length > 2 ∧ (Split r.Host '.').getD 0 "" ≠ "www" then
        ((Split r.Host '.').getD 0 "", none)
      else if (Split r.Host '.').length = 4 then ((Split r.Host '.').getD 1 "", none)
      else ("", some "unknown URL.Host format") := rfl

theorem isDecimal_no_dot (a : String) (ha : isDecimal a = true) : '.' ∉ a.data := by
  intro hmem
  simp only [isDecimal, Bool.and_eq_true, List.all_eq_true] at ha
  have := ha.2 _ hmem
  revert this
  decide

theorem isDecimal_ne_www (a : String) (ha : isDecimal a = true) : a ≠ "www" := by
  intro h
  subst h
  revert ha
  decide

/-! ## Host key extractor -/

/-- C1: for every label `a` without a dot and different from "www", and all
strings `b`, `c`, `extractServiceUrl` on a request whose Host is
`a ++ "." ++ b ++ "." ++ c` returns the key `a` and no error. -/
theorem extractServiceUrl_first_label (r : Request) (a b c : String)
    (hdot : '.' ∉ a.data) (hwww : a ≠ "www")
    (hhost : r.Host = a ++ "." ++ b ++ "." ++ c) :
    extractServiceUrl r = (a, none) := by
  have hsplit : Split r.Host '.' = a :: Split (b ++ "." ++ c) '.' := by
    rw [hhost]
    have : a ++ "." ++ b ++ "." ++ c = a ++ "." ++ (b ++ "." ++ c) := by
      simp [String.append_assoc]
    rw [this]
    exact Split_first_label a _ hdot
  exact extractServiceUrl_of_parts r a _ hsplit (Split_two_pieces b c) hwww

theorem extractServiceUrl_first_label_witness :
    extractServiceUrl ⟨"GET", "/", "sub.example.com", ""⟩ = ("sub", none) :=
  extractServiceUrl_first_label ⟨"GET", "/", "sub.example.com", ""⟩ "sub" "example" "com"
    (by decide) (by decide) (by decide)

/-- C2: for all labels `a`, `b`, `c` without a dot, `extractServiceUrl` on a
request whose Host is `"www." ++ a ++ "." ++ b ++ "." ++ c` returns the key `a`
and no error. -/
theorem extractServiceUrl_www_label (r : Request) (a b c : String)
    (ha : '.' ∉ a.data) (hb : '.' ∉ b.data) (hc : '.' ∉ c.data)
    (hhost : r.Host = "www." ++ a ++ "." ++ b ++ "." ++ c) :
    extractServiceUrl r = (a, none) := by
  have hassoc : "www." ++ a ++ "." ++ b ++ "." ++ c
      = "www" ++ "." ++ (a ++ "." ++ (b ++ "." ++ c)) := by
    have hw : ("www." : String) = "www" ++ "." := by decide
    rw [hw]
    simp [String.append_assoc]
  have hsplit : Split r.Host '.' = ["www", a, b, c] := by
    rw [hhost, hassoc, Split_first_label "www" _ (by decide), Split_first_label a _ ha,
      Split_first_label b _ hb, Split_no_dot c hc]
  unfold extractServiceUrl
  simp [hsplit]

theorem extractServiceUrl_www_label_witness :
    extractServiceUrl ⟨"GET", "/", "www.sub.example.com", ""⟩ = ("sub", none) :=
  extractServiceUrl_www_label ⟨"GET", "/", "www.sub.example.com", ""⟩ "sub" "example" "com"
    (by decide) (by decide) (by decide) (by decide)

/-- C3: `extractServiceUrl` returns an error exactly when splitting the host on
'.' gives 1 or 2 labels, or the first label is "www" and the number of labels
is not 4; with the error it returns the empty key; and the hosts
"example.com", "a.b", "www.example.com" and "www.a.b.c.d" all fail. -/
theorem extractServiceUrl_error_iff (r : Request) :
    ((extractServiceUrl r).2 ≠ none ↔
      ((Split r.Host '.').length = 1 ∨ (Split r.Host '.').length = 2 ∨
        ((Split r.Host '.').head? = some "www" ∧ (Split r.Host '.').length ≠ 4))) ∧
    ((extractServiceUrl r).2 ≠ none → (extractServiceUrl r).1 = "") ∧
    (r.Host ∈ ["example.com", "a.b", "www.example.com", "www.a.b.c.d"] →
      extractServiceUrl r = ("", some "unknown URL.Host format")) := by
  have hpos := Split_length_pos r.Host '.'
  rw [extractServiceUrl_eq]
  refine ⟨?_, ?_, ?_⟩
  · cases hparts : Split r.Host '.' with
    | nil => simp [hparts] at hpos
    | cons p ps =>
      simp only [List.length_cons, List.getD_cons_zero, List.head?_cons, Option.some.injEq]
      by_cases h1 : ps.length + 1 > 2 ∧ p ≠ "www"
      · rw [if_pos h1]
        constructor
        · intro h
          exact absurd rfl h
        · rintro (h | h | ⟨h, _⟩)
          · omega
          · omega
          · exact absurd h h1.2
      · rw [if_neg h1]
        by_cases h2 : ps.length + 1 = 4
        · rw [if_pos h2]
          constructor
          · intro h
            exact absurd rfl h
          · rintro (h | h | ⟨_, h⟩)
            · omega
            · omega
            · exact absurd h2 h
        · rw [if_neg h2]
          constructor
          · intro _
            by_cases h3 : p = "www"
            · right; right; exact ⟨h3, h2⟩
            · have : ¬ (ps.length + 1 > 2) := fun h => h1 ⟨h, h3⟩
              omega
          · intro _ h
            cases h
  · intro h
    split_ifs at h ⊢ <;> simp at h ⊢
  · intro hmem
    simp only [List.mem_cons, List.mem_singleton, List.not_mem_nil, or_false] at hmem
    rcases hmem with h | h | h | h <;> rw [h] <;> decide

theorem extractServiceUrl_error_iff_witness :
    ((extractServiceUrl ⟨"GET", "/", "www.example.com", ""⟩).2 ≠ none ↔
      ((Split "www.example.com" '.').length = 1 ∨ (Split "www.example.com" '.').length = 2 ∨
        ((Split "www.example.com" '.').head? = some "www" ∧
          (Split "www.example.com" '.').length ≠ 4))) ∧
    extractServiceUrl ⟨"GET", "/", "example.com", ""⟩ = ("", some "unknown URL.Host format") ∧
    extractServiceUrl ⟨"GET", "/", "www.a.b.c.d", ""⟩ = ("", some "unknown URL.Host format") :=
  ⟨(extractServiceUrl_error_iff ⟨"GET", "/", "www.example.com", ""⟩).1,
   (extractServiceUrl_error_iff ⟨"GET", "/", "example.com", ""⟩).2.2 (by decide),
   (extractServiceUrl_error_iff ⟨"GET", "/", "www.a.b.c.d", ""⟩).2.2 (by decide)⟩

/-- C10, counterexample: "192.168.1.1" is four decimal numbers separated by
dots, and `extractServiceUrl` returns the key "192" with no error. -/
theorem extractServiceUrl_ipv4_accepted :
    isDecimal "192" = true ∧ isDecimal "168" = true ∧ isDecimal "1" = true ∧
    ("192.168.1.1" : String) = "192" ++ "." ++ "168" ++ "." ++ "1" ++ "." ++ "1" ∧
    extractServiceUrl ⟨"GET", "/", "192.168.1.1", ""⟩ = ("192", none) := by
  decide

/-- C10, amended: `extractServiceUrl` does not reject IPv4 literals; for every
host made of four decimal numbers separated by dots it returns the first number
as the key, with no error. -/
theorem extractServiceUrl_ipv4_first_number (r : Request) (a b c d : String)
    (ha : isDecimal a = true) (_hb : isDecimal b = true) (_hc : isDecimal c = true)
    (_hd : isDecimal d = true)
    (hhost : r.Host = a ++ "." ++ b ++ "." ++ c ++ "." ++ d) :
    extractServiceUrl r = (a, none) := by
  have hsplit : Split r.Host '.' = a :: Split ((b ++ "." ++ c) ++ "." ++ d) '.' := by
    rw [hhost]
    have : a ++ "." ++ b ++ "." ++ c ++ "." ++ d = a ++ "." ++ ((b ++ "." ++ c) ++ "." ++ d) := by
      simp [String.append_assoc]
    rw [this]
    exact Split_first_label a _ (isDecimal_no_dot a ha)
  exact extractServiceUrl_of_parts r a _ hsplit (Split_two_pieces _ d) (isDecimal_ne_www a ha)

theorem extractServiceUrl_ipv4_first_number_witness :
    extractServiceUrl ⟨"GET", "/", "10.0.0.1", ""⟩ = ("10", none) :=
  extractServiceUrl_ipv4_first_number ⟨"GET", "/", "10.0.0.1", ""⟩ "10" "0" "0" "1"
    (by decide) (by decide) (by decide) (by decide) (by decide)

/-! ## Registry -/

theorem toLower_toLower (c : Char) : c.toLower.toLower = c.toLower := by
  by_cases h : c.toNat ≥ 65 ∧ c.toNat ≤ 90
  · rw [← Char.ofNat_toNat c]
    generalize c.toNat = n at h
    obtain ⟨h1, h2⟩ := h
    interval_cases n <;> rfl
  · have : c.toLower = c := by
      simp only [Char.toLower]
      rw [if_neg h]
    rw [this, this]

theorem asciiLower_idem (s : String) : asciiLower (asciiLower s) = asciiLower s := by
  have h : Char.toLower ∘ Char.toLower = Char.toLower := funext toLower_toLower
  simp [asciiLower, h]

/-- Round trip of `memoryStore`: after `Set(k, v)`, `Get(k')` returns `v` for
every `k'` with the same lower-case form as `k`. -/
theorem memoryStore_roundtrip (lower : String → String) (m : GoMap) (k k' v : String)
    (h : lower k' = lower k) :
    (memoryStore lower).Get ((memoryStore lower).Set m k v).1 k' = (v, none) := by
  simp [memoryStore, h]

/-- C7: for `memoryStore` and keys `k`, `k'` with the same lower-case form,
`Set(k, v)` succeeds and a following `Get(k')` returns `v` with no error; and
`redisStore` passes the lower-cased key to the client in both `Set` and `Get`,
so it cannot tell such keys apart. -/
theorem store_roundtrip_case_insensitive (lower : String → String) (m : GoMap)
    (k k' v : String) (h : lower k = lower k') :
    ((memoryStore lower).Set m k v).2 = none ∧
    (memoryStore lower).Get ((memoryStore lower).Set m k v).1 k' = (v, none) ∧
    (∀ (σ : Type) (client : RedisClient σ) (c : σ) (key value : String),
      (redisStore lower client).Set c key value = client.Set c (lower key) value ∧
      (redisStore lower client).Get c key = client.Get c (lower key)) ∧
    (∀ (σ : Type) (client : RedisClient σ) (c : σ),
      (redisStore lower client).Set c k v = (redisStore lower client).Set c k' v ∧
      (redisStore lower client).Get c k = (redisStore lower client).Get c k') := by
  refine ⟨rfl, memoryStore_roundtrip lower m k k' v h.symm, ?_, ?_⟩
  · intro σ client c key value
    exact ⟨rfl, rfl⟩
  · intro σ client c
    simp [redisStore, h]

theorem store_roundtrip_case_insensitive_witness :
    asciiLower "Foo" = asciiLower "foo" ∧
    (memoryStore asciiLower).Get ((memoryStore asciiLower).Set emptyMap "Foo" "http://x").1 "foo"
      = ("http://x", none) :=
  ⟨by decide,
    (store_roundtrip_case_insensitive asciiLower emptyMap "Foo" "foo" "http://x" (by decide)).2.1⟩

/-! ## Admin endpoint -/

/-- What `handleSet` does on a POST request whose body decodes to `(n, u)` when
`store.Set` succeeds: one call `Set(lower n, u)`, then status 200. -/
theorem handleSet_run (lower : String → String) (decode : String → Option SetBody)
    {σ : Type} (s : proxyServer σ) (st : σ) (r : Request) (n u : String)
    (hmethod : r.Method = "POST") (hbody : decode r.Body = some ⟨n, u⟩)
    (hset : (s.store.Set st (lower n) u).2 = none) :
    handleSet lower decode s st r
      = ((s.store.Set st (lower n) u).1, [.storeSet (lower n) u, .WriteHeader 200]) := by
  unfold handleSet
  rw [if_neg (by simp [hmethod]), hbody]
  rcases hp : s.store.Set st (lower n) u with ⟨st1, e⟩
  rw [hp] at hset
  simp only at hset
  subst hset
  simp [hp, StatusOK]

/-- C4, counterexample: `forgetfulStore.Set` succeeds, `handleSet` on the
request of `TestHandleSet` makes the call `Set("test", "http://test.example.com")`
and writes 200, and `Get("Test")` afterwards returns an error, not the URL. -/
theorem handleSet_forgetful_store :
    testSetRequest.Method = "POST" ∧
    testDecode testSetRequest.Body = some ⟨"Test", "http://test.example.com"⟩ ∧
    (forgetfulStore.Set () (asciiLower "Test") "http://test.example.com").2 = none ∧
    handleSet asciiLower testDecode (newProxyServer forgetfulStore) () testSetRequest
      = ((), [.storeSet "test" "http://test.example.com", .WriteHeader 200]) ∧
    forgetfulStore.Get
        (handleSet asciiLower testDecode (newProxyServer forgetfulStore) () testSetRequest).1
        "Test"
      = ("", some "record not found") := by
  decide

/-- C4, amended: for a POST request whose body decodes to name `n` and service
URL `u`, (1) with every store whose `Set` succeeds, `handleSet` makes the single
store call `Set(lower n, u)` and writes status 200; (2) with `memoryStore`, the
map afterwards holds `u` at the lower-cased name and is unchanged at every other
key, and `Get(n')` returns `u` for every `n'` whose lower-case form is that of
`lower n`; (3) so, `lower` being idempotent as `strings.ToLower` is, for every
`n'` equal to `n` up to letter case; (4) the same holds with `redisStore` over a
client that returns from `Get(key)` what a successful `Set(key, value)` has just
stored under that same key. -/
theorem handleSet_registers (lower : String → String) (decode : String → Option SetBody)
    (r : Request) (n u : String)
    (hmethod : r.Method = "POST") (hbody : decode r.Body = some ⟨n, u⟩) :
    (∀ (σ : Type) (s : proxyServer σ) (st : σ), (s.store.Set st (lower n) u).2 = none →
      handleSet lower decode s st r
        = ((s.store.Set st (lower n) u).1, [.storeSet (lower n) u, .WriteHeader 200])) ∧
    (∀ (m : GoMap),
      handleSet lower decode (newProxyServer (memoryStore lower)) m r
        = ((fun x => if x = lower (lower n) then some u else m x),
            [.storeSet (lower n) u, .WriteHeader 200]) ∧
      ∀ n', lower n' = lower (lower n) →
        (memoryStore lower).Get
          (handleSet lower decode (newProxyServer (memoryStore lower)) m r).1 n' = (u, none)) ∧
    ((∀ x, lower (lower x) = lower x) → ∀ (m : GoMap) (n' : String), lower n' = lower n →
      (memoryStore lower).Get
        (handleSet lower decode (newProxyServer (memoryStore lower)) m r).1 n' = (u, none)) ∧
    ((∀ x, lower (lower x) = lower x) → ∀ (τ : Type) (client : RedisClient τ) (c : τ),
      (∀ (d : τ) (key value : String), (client.Set d key value).2 = none →
        client.Get (client.Set d key value).1 key = (value, none)) →
      (client.Set c (lower (lower n)) u).2 = none →
      ∀ n', lower n' = lower n →
        (redisStore lower client).Get
          (handleSet lower decode (newProxyServer (redisStore lower client)) c r).1 n'
          = (u, none)) := by
  have hmem : ∀ (m : GoMap),
      handleSet lower decode (newProxyServer (memoryStore lower)) m r
        = ((fun x => if x = lower (lower n) then some u else m x),
            [.storeSet (lower n) u, .WriteHeader 200]) := by
    intro m
    exact handleSet_run lower decode (newProxyServer (memoryStore lower)) m r n u hmethod hbody rfl
  have hget : ∀ (m : GoMap) (n' : String), lower n' = lower (lower n) →
      (memoryStore lower).Get
        (handleSet lower decode (newProxyServer (memoryStore lower)) m r).1 n' = (u, none) := by
    intro m n' hn'
    rw [hmem m]
    exact memoryStore_roundtrip lower m (lower n) n' u hn'
  refine ⟨?_, fun m => ⟨hmem m, hget m⟩, ?_, ?_⟩
  · intro σ s st hset
    exact handleSet_run lower decode s st r n u hmethod hbody hset
  · intro hidem m n' hn'
    exact hget m n' (by rw [hidem, hn'])
  · intro hidem τ client c hclient hset n' hn'
    rw [handleSet_run lower decode (newProxyServer (redisStore lower client)) c r n u
      hmethod hbody hset]
    have hkey : lower n' = lower (lower n) := by rw [hidem, hn']
    show client.Get (client.Set c (lower (lower n)) u).1 (lower n') = (u, none)
    rw [hkey]
    exact hclient c (lower (lower n)) u hset

theorem handleSet_registers_witness :
    testSetRequest.Method = "POST" ∧
    testDecode testSetRequest.Body = some ⟨"Test", "http://test.example.com"⟩ ∧
    (handleSet asciiLower testDecode (newProxyServer (memoryStore asciiLower)) emptyMap
        testSetRequest).2
      = [.storeSet "test" "http://test.example.com", .WriteHeader 200] ∧
    (memoryStore asciiLower).Get
        (handleSet asciiLower testDecode (newProxyServer (memoryStore asciiLower)) emptyMap
          testSetRequest).1 "Test"
      = ("http://test.example.com", none) ∧
    (memoryStore asciiLower).Get
        (handleSet asciiLower testDecode (newProxyServer (memoryStore asciiLower)) emptyMap
          testSetRequest).1 "TEST"
      = ("http://test.example.com", none) :=
  have h := handleSet_registers asciiLower testDecode testSetRequest "Test"
    "http://test.example.com" (by decide) (by decide)
  ⟨by decide, by decide,
    congrArg Prod.snd (h.1 GoMap (newProxyServer (memoryStore asciiLower)) emptyMap rfl),
    h.2.2.1 asciiLower_idem emptyMap "Test" rfl,
    (h.2.1 emptyMap).2 "TEST" (by decide)⟩

/-- C6: the status written by `handleSet` is 400 when the method is not "POST"
or the body does not decode, otherwise 500 when `store.Set` returns an error,
otherwise 200; exactly one status is written and it is one of these three. -/
theorem handleSet_status (lower : String → String) (decode : String → Option SetBody)
    {σ : Type} (s : proxyServer σ) (st : σ) (r : Request) :
    (r.Method ≠ "POST" ∨ decode r.Body = none →
      statuses (handleSet lower decode s st r).2 = [400]) ∧
    (∀ body, r.Method = "POST" → decode r.Body = some body →
      (s.store.Set st (lower body.Name) body.ServiceUrl).2 ≠ none →
      statuses (handleSet lower decode s st r).2 = [500]) ∧
    (∀ body, r.Method = "POST" → decode r.Body = some body →
      (s.store.Set st (lower body.Name) body.ServiceUrl).2 = none →
      statuses (handleSet lower decode s st r).2 = [200]) ∧
    (statuses (handleSet lower decode s st r).2 = [400] ∨
      statuses (handleSet lower decode s st r).2 = [500] ∨
      statuses (handleSet lower decode s st r).2 = [200]) := by
  have h400 : r.Method ≠ "POST" ∨ decode r.Body = none →
      statuses (handleSet lower decode s st r).2 = [400] := by
    intro h
    unfold handleSet
    by_cases hm : r.Method ≠ "POST"
    · rw [if_pos hm]; rfl
    · rw [if_neg hm]
      rcases h with h | h
      · exact absurd h hm
      · rw [h]; rfl
  have hset : ∀ body, r.Method = "POST" → decode r.Body = some body →
      statuses (handleSet lower decode s st r).2 =
        if (s.store.Set st (lower body.Name) body.ServiceUrl).2 ≠ none then [500] else [200] := by
    intro body hm hb
    unfold handleSet
    rw [if_neg (by simp [hm]), hb]
    rcases hp : s.store.Set st (lower body.Name) body.ServiceUrl with ⟨st1, e⟩
    cases e <;> simp [hp, statuses, StatusOK, StatusInternalServerError]
  refine ⟨h400, ?_, ?_, ?_⟩
  · intro body hm hb he
    rw [hset body hm hb, if_pos he]
  · intro body hm hb he
    rw [hset body hm hb, if_neg (by simp [he])]
  · by_cases hm : r.Method = "POST"
    · cases hb : decode r.Body with
      | none => exact Or.inl (h400 (Or.inr hb))
      | some body =>
        rw [hset body hm hb]
        by_cases he : (s.store.Set st (lower body.Name) body.ServiceUrl).2 ≠ none
        · rw [if_pos he]; simp
        · rw [if_neg he]; simp
    · exact Or.inl (h400 (Or.inl hm))

theorem handleSet_status_witness :
    statuses (handleSet asciiLower testDecode (newProxyServer (memoryStore asciiLower)) emptyMap
      ⟨"GET", "/set", "example.com", testBody⟩).2 = [400] ∧
    statuses (handleSet asciiLower testDecode (newProxyServer (memoryStore asciiLower)) emptyMap
      ⟨"POST", "/set", "example.com", "name=Test"⟩).2 = [400] ∧
    statuses (handleSet asciiLower testDecode (newProxyServer downStore) () testSetRequest).2
      = [500] ∧
    statuses (handleSet asciiLower testDecode (newProxyServer (memoryStore asciiLower)) emptyMap
      testSetRequest).2 = [200] :=
  ⟨(handleSet_status asciiLower testDecode (newProxyServer (memoryStore asciiLower)) emptyMap
      ⟨"GET", "/set", "example.com", testBody⟩).1 (Or.inl (by decide)),
   (handleSet_status asciiLower testDecode (newProxyServer (memoryStore asciiLower)) emptyMap
      ⟨"POST", "/set", "example.com", "name=Test"⟩).1 (Or.inr (by decide)),
   (handleSet_status asciiLower testDecode (newProxyServer downStore) () testSetRequest).2.1
      ⟨"Test", "http://test.example.com"⟩ (by decide) (by decide) (by decide),
   (handleSet_status asciiLower testDecode (newProxyServer (memoryStore asciiLower)) emptyMap
      testSetRequest).2.2.1 ⟨"Test", "http://test.example.com"⟩ (by decide) (by decide) rfl⟩

/-! ## Router -/

theorem entered_handleSet (lower : String → String) (decode : String → Option SetBody)
    {σ : Type} (s : proxyServer σ) (st : σ) (r : Request) :
    entered (handleSet lower decode s st r).2 = [] := by
  unfold handleSet
  split
  · rfl
  · split
    · rfl
    · split <;> rfl

theorem entered_proxyHandler (parse : String → Except String URL) {σ : Type}
    (s : proxyServer σ) (st : σ) (r : Request) :
    entered (proxyHandler parse s st r).2 = [] := by
  unfold proxyHandler
  split
  · rfl
  · split <;> rfl

/-- C9, counterexample: the request URI "/set?x=1" has the path "/set", and
`ServeHTTP` runs `proxyHandler` on it, not `handleSet`. -/
theorem ServeHTTP_query_not_admin :
    uriPath "/set?x=1" = "/set" ∧
    entered (ServeHTTP asciiLower testDecode urlParse (newProxyServer (memoryStore asciiLower))
      emptyMap ⟨"POST", "/set?x=1", "example.com", testBody⟩).2 = [.proxyHandler] := by
  decide

/-- C9, amended: `ServeHTTP` delegates to `handleSet` exactly when the whole
`RequestURI` (path and query string together) is "/set", and to `proxyHandler`
otherwise; exactly one of the two handlers runs per request. -/
theorem ServeHTTP_dispatch (lower : String → String) (decode : String → Option SetBody)
    (parse : String → Except String URL) {σ : Type}
    (s : proxyServer σ) (st : σ) (r : Request) :
    (r.RequestURI = "/set" →
      ServeHTTP lower decode parse s st r
        = ((handleSet lower decode s st r).1,
            .enter .handleSet :: (handleSet lower decode s st r).2)) ∧
    (r.RequestURI ≠ "/set" →
      ServeHTTP lower decode parse s st r
        = ((proxyHandler parse s st r).1,
            .enter .proxyHandler :: (proxyHandler parse s st r).2)) ∧
    entered (ServeHTTP lower decode parse s st r).2
      = [if r.RequestURI = "/set" then Handler.handleSet else Handler.proxyHandler] := by
  refine ⟨?_, ?_, ?_⟩
  · intro h
    simp only [ServeHTTP, if_pos h]
  · intro h
    simp only [ServeHTTP, if_neg h]
  · by_cases h : r.RequestURI = "/set"
    · simp only [ServeHTTP, if_pos h, entered, entered_handleSet]
    · simp only [ServeHTTP, if_neg h, entered, entered_proxyHandler]

theorem ServeHTTP_dispatch_witness :
    entered (ServeHTTP asciiLower testDecode urlParse (newProxyServer (memoryStore asciiLower))
      emptyMap testSetRequest).2 = [.handleSet] ∧
    (ServeHTTP asciiLower testDecode urlParse (newProxyServer (memoryStore asciiLower))
      emptyMap ⟨"GET", "/set?x=1", "sub.example.com", ""⟩).2
      = .enter .proxyHandler ::
          (proxyHandler urlParse (newProxyServer (memoryStore asciiLower)) emptyMap
            ⟨"GET", "/set?x=1", "sub.example.com", ""⟩).2 :=
  ⟨(ServeHTTP_dispatch asciiLower testDecode urlParse (newProxyServer (memoryStore asciiLower))
      emptyMap testSetRequest).2.2,
   congrArg Prod.snd
    ((ServeHTTP_dispatch asciiLower testDecode urlParse (newProxyServer (memoryStore asciiLower))
      emptyMap ⟨"GET", "/set?x=1", "sub.example.com", ""⟩).2.1 (by decide))⟩

/-- C5, the code at the failing input: after "Test" is registered,
`store.Get("test")` returns "http://test.example.com", yet for Host
"test.anything.anything" the dispatcher is built from the key "test"; for Host
"unknown.example.com", whose key has no entry, no 502 is written and the
dispatcher is built from "unknown"; and what `proxyHandler` does never depends
on the store or its state. -/
theorem proxyHandler_skips_lookup :
    (memoryStore asciiLower).Get
        (ServeHTTP asciiLower testDecode urlParse (newProxyServer (memoryStore asciiLower))
          emptyMap testSetRequest).1 "test"
      = ("http://test.example.com", none) ∧
    (ServeHTTP asciiLower testDecode urlParse (newProxyServer (memoryStore asciiLower))
        (ServeHTTP asciiLower testDecode urlParse (newProxyServer (memoryStore asciiLower))
          emptyMap testSetRequest).1
        ⟨"GET", "/", "test.anything.anything", ""⟩).2
      = [.enter .proxyHandler, .newReverseProxy "test",
          .forward ⟨⟨⟨"", "", "", "test", "", ""⟩⟩⟩] ∧
    (memoryStore asciiLower).Get emptyMap "unknown" = ("", some "record not found") ∧
    (ServeHTTP asciiLower testDecode urlParse (newProxyServer (memoryStore asciiLower))
        emptyMap ⟨"GET", "/", "unknown.example.com", ""⟩).2
      = [.enter .proxyHandler, .newReverseProxy "unknown",
          .forward ⟨⟨⟨"", "", "", "unknown", "", ""⟩⟩⟩] ∧
    (∀ (parse : String → Except String URL) (σ τ : Type) (s : proxyServer σ) (t : proxyServer τ)
        (st : σ) (tt : τ) (r : Request),
      (proxyHandler parse s st r).2 = (proxyHandler parse t tt r).2) := by
  refine ⟨by decide, by decide, by decide, by decide, ?_⟩
  intro parse σ τ s t st tt r
  unfold proxyHandler
  split
  · rfl
  · split <;> rfl

/-- C8, counterexample: "not a url" parses, without error, to a URL with no
scheme and no host; `newReverseProxy` returns a proxy for it, and
`proxyHandler` hands the request over to that proxy instead of writing 500. -/
theorem newReverseProxy_accepts_relative :
    urlParse "not a url" = .ok ⟨"", "", "", "not a url", "", ""⟩ ∧
    isAbsolute ⟨"", "", "", "not a url", "", ""⟩ = false ∧
    newReverseProxy urlParse "not a url" = .ok ⟨⟨⟨"", "", "", "not a url", "", ""⟩⟩⟩ ∧
    (proxyHandler urlParse (newProxyServer (memoryStore asciiLower)) emptyMap
        ⟨"GET", "/", "not a url.example.com", ""⟩).2
      = [.newReverseProxy "not a url", .forward ⟨⟨⟨"", "", "", "not a url", "", ""⟩⟩⟩] := by
  decide

/-- C8, amended: `newReverseProxy` returns an error exactly when `url.Parse`
rejects the target, and whenever it returns an error for the string that
`proxyHandler` passes to it, `proxyHandler` writes status 500 and hands the
request to no dispatcher. -/
theorem newReverseProxy_error_iff (parse : String → Except String URL) (targetUrl : String) :
    ((∃ e, newReverseProxy parse targetUrl = .error e) ↔ ∃ e, parse targetUrl = .error e) ∧
    (∀ (σ : Type) (s : proxyServer σ) (st : σ) (r : Request),
      extractServiceUrl r = (targetUrl, none) →
      (∃ e, newReverseProxy parse targetUrl = .error e) →
      proxyHandler parse s st r = (st, [.newReverseProxy targetUrl, .WriteHeader 500])) := by
  constructor
  · unfold newReverseProxy
    cases parse targetUrl with
    | error e => simp
    | ok u => simp
  · intro σ s st r hkey herr
    obtain ⟨e, he⟩ := herr
    unfold proxyHandler
    rw [hkey]
    simp only [he, StatusInternalServerError]

theorem newReverseProxy_error_iff_witness :
    extractServiceUrl ⟨"GET", "/", "%zz.example.com", ""⟩ = ("%zz", none) ∧
    urlParse "%zz" = .error "invalid URL escape" ∧
    proxyHandler urlParse (newProxyServer downStore) () ⟨"GET", "/", "%zz.example.com", ""⟩
      = ((), [.newReverseProxy "%zz", .WriteHeader 500]) :=
  ⟨by decide, by decide,
    (newReverseProxy_error_iff urlParse "%zz").2 Unit (newProxyServer downStore) ()
      ⟨"GET", "/", "%zz.example.com", ""⟩ (by decide) ⟨"invalid URL escape", by decide⟩⟩

end Proxy
